import Mathlib

/-!
Verification of the cursorkleo-mcp-server collaboration hub (src/index.ts).

The server state is shallowly embedded: the `clients` Map (connection id →
authenticated client) becomes a `List Client`; the `projects` Map
(project id → Set of member user ids) becomes a function
`String → Option (List String)`.  Every outward-visible action of a handler
(a `ws.send`, the Socket.IO telemetry `io.emit`, a `ws.close`, an outbound
HTTP request of the AI proxy) is recorded as an `Effect` in the order the
code performs it.  JavaScript runtime values reaching validation code are
embedded as `JSValue`, with JS truthiness and `typeof` checks reproduced.
-/

namespace CursorKleo

/-- A decoded JavaScript value, as seen by the payload validation code. -/
inductive JSValue where
  | undefinedJS
  | nullv
  | str (s : String)
  | num (n : Int)
  | boolv (b : Bool)
  | arr (elems : List JSValue)
  | obj (fields : List (String × JSValue))

/-- Property lookup `v.k` on a decoded value: `undefined` unless `v` is an
object carrying the field. -/
def JSValue.getField : JSValue → String → JSValue
  | .obj fields, k =>
    match fields.find? (fun f => f.1 == k) with
    | some f => f.2
    | none => .undefinedJS
  | _, _ => .undefinedJS

/-- JavaScript truthiness: `undefined`, `null`, `""`, `0`, `false` are falsy;
objects and arrays (even empty) are truthy. -/
def JSValue.truthy : JSValue → Bool
  | .undefinedJS => false
  | .nullv => false
  | .str s => !(s == "")
  | .num n => !(n == 0)
  | .boolv b => b
  | .arr _ => true
  | .obj _ => true

/-- `typeof v === 'string'`. -/
def JSValue.isString : JSValue → Bool
  | .str _ => true
  | _ => false

/-- `Array.isArray(v)`. -/
def JSValue.isArray : JSValue → Bool
  | .arr _ => true
  | _ => false

/-- `typeof v === 'object'` (true for objects, arrays and `null`). -/
def JSValue.typeofObject : JSValue → Bool
  | .obj _ => true
  | .arr _ => true
  | .nullv => true
  | _ => false

/-- The string content of a value known to be a string. -/
def JSValue.asString : JSValue → String
  | .str s => s
  | _ => ""

/-- An authenticated client, one entry of the `clients` Map
(src/index.ts, `interface Client`).  `wsOpen` models
`ws.readyState === WebSocket.OPEN` of the attached socket. -/
structure Client where
  id : String
  userId : String
  userName : String
  isAuthenticated : Bool
  projectId : Option String
  wsOpen : Bool
  deriving DecidableEq

/-- Shapes of outbound payloads occurring in src/index.ts. -/
inductive OutPayload where
  | text (s : String)
  | errObj (error : String)
  | result (success : Bool) (message : String)
  | aiResult (success : Bool) (result : String)
  | userEvent (userId userName : String)
  | chatMsg (userId userName message : String)
  | editApplied (fileId : String) (changeData : List JSValue) (sourceUserId sourceUserName : String)
  | cursorMoved (fileId : String) (position : JSValue) (sourceUserId sourceUserName : String)
  | authSuccess (userId userName clientId : String)
  | authFailure (error : String)

/-- An outbound envelope as serialized by `JSON.stringify`: `requestId = none`
models the field being `undefined` and hence dropped from the JSON text;
`isError = false` models the absence of the `isError: true` field. -/
structure OutEnvelope where
  type : String
  payload : OutPayload
  requestId : Option String
  isError : Bool

/-- One outward-visible action of a handler, in program order. -/
inductive Effect where
  | send (connId : String) (env : OutEnvelope)
  | telemetry (sessionId : String) (eventType : String)
  | close (connId : String) (code : Nat) (reason : String)
  | outbound (endpoint : String) (authHeaderName : String) (key : String)

/-- The mutable server state: the `clients` Map as a list of entries and the
`projects` Map as a partial function to member-user-id sets. -/
structure ServerState where
  clients : List Client
  projects : String → Option (List String)

/-- The member set of a session (empty when the session has no registry row). -/
def members (st : ServerState) (pid : String) : List String :=
  (st.projects pid).getD []

/-- JS `Set.add`: append the element unless already present. -/
def setAdd (s : List String) (u : String) : List String :=
  if u ∈ s then s else s ++ [u]

/-- `broadcast(projectId, message, excludeClient?)` (src/index.ts lines
534-559).  Returns without any effect when the session has no registry row;
otherwise pushes one telemetry notification, then sends the serialized
envelope to every authenticated client bound to the session whose user id is
a member, skipping the excluded client and clients whose socket is not open. -/
def broadcast (st : ServerState) (projectId : String) (envType : String)
    (pl : OutPayload) (excludeId : Option String) : List Effect :=
  match st.projects projectId with
  | none => []
  | some projectUserIds =>
    Effect.telemetry projectId envType ::
      (st.clients.filter (fun c =>
        c.isAuthenticated && (c.projectId == some projectId)
          && projectUserIds.contains c.userId
          && !(excludeId == some c.id) && c.wsOpen)).map
        (fun c => Effect.send c.id ⟨envType, pl, none, false⟩)

/-- `sendResponse(client, payload, requestId?)`: an `mcp_tool_response`
envelope to the client, echoing the request id, only if its socket is open. -/
def sendResponse (c : Client) (pl : OutPayload) (requestId : Option String) : List Effect :=
  if c.wsOpen then [Effect.send c.id ⟨"mcp_tool_response", pl, requestId, false⟩] else []

/-- `sendError(client, error, requestId?)`: an `mcp_tool_response` envelope
with `{error}` payload and `isError: true`, echoing the request id, only if
the socket is open. -/
def sendError (c : Client) (error : String) (requestId : Option String) : List Effect :=
  if c.wsOpen then [Effect.send c.id ⟨"mcp_tool_response", .errObj error, requestId, true⟩] else []

/-- Number of `send` effects addressed to connection `i`. -/
def sendCountTo (effs : List Effect) (i : String) : Nat :=
  effs.countP (fun e => match e with
    | .send j _ => j == i
    | _ => false)

/-- Number of `send` effects addressed to connection `i` carrying an envelope
of type `t`. -/
def sendCountType (effs : List Effect) (i : String) (t : String) : Nat :=
  effs.countP (fun e => match e with
    | .send j env => j == i && env.type == t
    | _ => false)

/-- Number of telemetry notifications among the effects. -/
def telemetryCount (effs : List Effect) : Nat :=
  effs.countP (fun e => match e with
    | .telemetry _ _ => true
    | _ => false)

/-- Whether a `close` effect occurs. -/
def hasClose (effs : List Effect) : Bool :=
  effs.any (fun e => match e with
    | .close _ _ _ => true
    | _ => false)

/-- Whether an outbound HTTP request is attempted. -/
def hasOutbound (effs : List Effect) : Bool :=
  effs.any (fun e => match e with
    | .outbound _ _ _ => true
    | _ => false)

/-- The delivery condition of `broadcast` for a client, as a Bool. -/
def deliverCond (projectId : String) (projectUserIds : List String)
    (excludeId : Option String) (c : Client) : Bool :=
  c.isAuthenticated && (c.projectId == some projectId)
    && projectUserIds.contains c.userId
    && !(excludeId == some c.id) && c.wsOpen

/-- Rebind the project id of the clients-map entry with connection id
`connId` (the in-place mutation `client.projectId = projectId` seen through
the `clients` Map, which aliases the same object). -/
def setClientProject (clients : List Client) (connId : String) (pid : Option String) : List Client :=
  clients.map (fun c => if c.id = connId then { c with projectId := pid } else c)

/-- Leaving the old project on a `project:join` to a different id
(src/index.ts lines 291-308): remove the user id from the old member set;
delete the row if it became empty, otherwise broadcast `user_left` to the
remaining members, excluding the joining client. -/
def removeFromOldProject (st : ServerState) (c : Client) (newPid : String) :
    ServerState × List Effect :=
  match c.projectId with
  | some oldPid =>
    if oldPid ≠ newPid then
      match st.projects oldPid with
      | some oldSet =>
        let oldSet' := oldSet.erase c.userId
        if oldSet' = [] then
          ({ st with projects := fun p => if p = oldPid then none else st.projects p }, [])
        else
          let st' :=
            { st with projects := fun p => if p = oldPid then some oldSet' else st.projects p }
          (st', broadcast st' oldPid "user_left" (.userEvent c.userId c.userName) (some c.id))
      | none => (st, [])
    else (st, [])
  | none => (st, [])

/-- The `project:join` branch of `handleMcpToolCall` (src/index.ts lines
280-334): validate the project id, leave the old project if bound elsewhere,
bind the new id, create the row if absent and add the user id, reply success
to the sender, broadcast `user_joined` excluding the sender. -/
def handleProjectJoin (st : ServerState) (c : Client) (args : JSValue)
    (requestId : Option String) : ServerState × List Effect :=
  let pidVal := args.getField "projectId"
  if !(pidVal.truthy && pidVal.isString) then
    (st, sendError c "Missing or invalid projectId for project:join" requestId)
  else
    let pid := pidVal.asString
    let res := removeFromOldProject st c pid
    let st1 := res.1
    let st2 := { st1 with clients := setClientProject st1.clients c.id (some pid) }
    let st3 :=
      { st2 with projects := fun p =>
          if p = pid then some (setAdd ((st2.projects pid).getD []) c.userId)
          else st2.projects p }
    (st3,
      res.2
        ++ sendResponse c (.result true ("Joined project " ++ pid)) requestId
        ++ broadcast st3 pid "user_joined" (.userEvent c.userId c.userName) (some c.id))

/-- The `edit:send` branch of `handleMcpToolCall` (src/index.ts lines
335-370): require an active session and well-formed arguments, broadcast
`edit_applied` excluding the sender, then reply success to the sender. -/
def handleEditSend (st : ServerState) (c : Client) (args : JSValue)
    (requestId : Option String) : ServerState × List Effect :=
  match c.projectId with
  | none => (st, sendError c "Cannot send edit: Not currently in a project" requestId)
  | some pid =>
    let fileId := args.getField "fileId"
    let changeData := args.getField "changeData"
    if !(fileId.truthy && fileId.isString && changeData.truthy && changeData.isArray) then
      (st, sendError c
        "Missing, invalid, or incorrectly formatted fileId or changeData for edit:send" requestId)
    else
      (st,
        broadcast st pid "edit_applied"
          (.editApplied fileId.asString
            (match changeData with | .arr xs => xs | _ => []) c.userId c.userName)
          (some c.id)
        ++ sendResponse c (.result true "Edit broadcasted") requestId)

/-- The `cursor:update` branch of `handleMcpToolCall` (src/index.ts lines
446-478): require an active session and well-formed arguments, broadcast
`cursor_moved` excluding the sender; no reply. -/
def handleCursorUpdate (st : ServerState) (c : Client) (args : JSValue)
    (requestId : Option String) : ServerState × List Effect :=
  match c.projectId with
  | none => (st, sendError c "Cannot update cursor: Not currently in a project" requestId)
  | some pid =>
    let fileId := args.getField "fileId"
    let position := args.getField "position"
    if !(fileId.truthy && fileId.isString && position.truthy && position.typeofObject) then
      (st, sendError c "Missing or invalid fileId or position for cursor:update" requestId)
    else
      (st,
        broadcast st pid "cursor_moved"
          (.cursorMoved fileId.asString position c.userId c.userName)
          (some c.id))

/-- The provider credentials read from the environment; `none` models an
unset variable, `some ""` one set to the empty string. -/
structure AiEnv where
  openaiKey : Option String
  anthropicKey : Option String

/-- JS truthiness of an environment variable: an unset variable and one set
to the empty string are both falsy under the `a || b` fallback chain. -/
def jsKey : Option String → Option String
  | some s => if s = "" then none else some s
  | none => none

/-- `process.env.OPENAI_API_KEY || process.env.ANTHROPIC_API_KEY`: the first
truthy credential, regardless of provider. -/
def pickApiKey (env : AiEnv) : Option String :=
  match jsKey env.openaiKey with
  | some k => some k
  | none => jsKey env.anthropicKey

/-- `toolName.includes(sub)` substring test. -/
def strIncludesAux (s sub : List Char) : Bool :=
  match s with
  | [] => sub.isEmpty
  | _ :: rest => sub.isPrefixOf s || strIncludesAux rest sub

/-- JS `String.prototype.includes`. -/
def strIncludes (s sub : String) : Bool :=
  strIncludesAux s.data sub.data

/-- The `ai:request_*` branch of `handleMcpToolCall` (src/index.ts lines
372-443).  `aiHttp` abstracts the outcome of the single outbound call:
`Except.ok text` is the extracted completion (already defaulted to `""` when
the provider field is absent), `Except.error msg` the upstream error message
used in the failure reply.  The branch requires an active session, picks the
first truthy credential of the OpenAI/Anthropic pair (throwing a
not-configured error only when both are missing), selects the endpoint by
substring match on the tool name (unknown providers fail without a call),
performs the one outbound call, and replies to the sender only. -/
def handleAiRequest (env : AiEnv) (aiHttp : Except String String) (st : ServerState)
    (c : Client) (toolName : String) (requestId : Option String) :
    ServerState × List Effect :=
  match c.projectId with
  | none => (st, sendError c "Cannot request AI: Not currently in a project" requestId)
  | some _ =>
    match pickApiKey env with
    | none =>
      (st, sendError c
        ("AI request failed: API key for " ++ toolName
          ++ " is not configured in environment variables.") requestId)
    | some apiKey =>
      if strIncludes toolName "openai" then
        Effect.outbound "https://api.openai.com/v1/chat/completions" "Authorization" apiKey
          |> fun out =>
            match aiHttp with
            | .ok text => (st, [out] ++ sendResponse c (.aiResult true text) requestId)
            | .error msg => (st, [out] ++ sendError c ("AI request failed: " ++ msg) requestId)
      else if strIncludes toolName "anthropic" then
        Effect.outbound "https://api.anthropic.com/v1/messages" "x-api-key" apiKey
          |> fun out =>
            match aiHttp with
            | .ok text => (st, [out] ++ sendResponse c (.aiResult true text) requestId)
            | .error msg => (st, [out] ++ sendError c ("AI request failed: " ++ msg) requestId)
      else
        (st, sendError c
          ("AI request failed: Unknown AI provider in tool: " ++ toolName) requestId)

/-- `handleMcpToolCall` dispatch (src/index.ts lines 274-483), in source
order: `project:join`, `edit:send`, the `ai:request_` family, `cursor:update`,
otherwise a not-implemented error reply. -/
def handleMcpToolCall (env : AiEnv) (aiHttp : Except String String) (st : ServerState)
    (c : Client) (toolName : String) (args : JSValue) (requestId : Option String) :
    ServerState × List Effect :=
  if toolName = "project:join" then handleProjectJoin st c args requestId
  else if toolName = "edit:send" then handleEditSend st c args requestId
  else if toolName.startsWith "ai:request_" then handleAiRequest env aiHttp st c toolName requestId
  else if toolName = "cursor:update" then handleCursorUpdate st c args requestId
  else
    (st, sendError c ("MCP tool '" ++ toolName ++ "' not implemented") requestId)

/-- JS `String.prototype.trim`: drop whitespace from both ends.  Defined by
structural recursion on the character list so that it evaluates inside
proofs. -/
def jsTrim (s : String) : String :=
  ⟨((s.data.dropWhile Char.isWhitespace).reverse.dropWhile Char.isWhitespace).reverse⟩

/-- `handleChatMessage` (src/index.ts lines 485-508): require an active
session and a non-empty-after-trimming string message, then broadcast
`new_chat_message` with the trimmed message to the whole session with no
exclusion (sender included).  The handler is called without the request's
`requestId`, so its error replies carry none. -/
def handleChatMessage (st : ServerState) (c : Client) (payload : JSValue) :
    ServerState × List Effect :=
  match c.projectId with
  | none => (st, sendError c "Cannot send chat: Not currently in a project" none)
  | some pid =>
    let message := payload.getField "message"
    if !(message.truthy && message.isString) || jsTrim message.asString = "" then
      (st, sendError c "Invalid chat message" none)
    else
      (st, broadcast st pid "new_chat_message"
        (.chatMsg c.userId c.userName (jsTrim message.asString)) none)

/-- The `ws.on('close')` cleanup for an authenticated client (src/index.ts
lines 164-194): if bound to a project whose row exists, delete the user id
from the member set; delete the row if it became empty, otherwise broadcast
`user_left` excluding the closing client; finally delete the clients-map
entry. -/
def handleClose (st : ServerState) (c : Client) : ServerState × List Effect :=
  let res :=
    match c.projectId with
    | some pid =>
      match st.projects pid with
      | some projectClients =>
        let s' := projectClients.erase c.userId
        if s' = [] then
          ({ st with projects := fun p => if p = pid then none else st.projects p },
            ([] : List Effect))
        else
          let st' := { st with projects := fun p => if p = pid then some s' else st.projects p }
          (st', broadcast st' pid "user_left" (.userEvent c.userId c.userName) (some c.id))
      | none => (st, [])
    | none => (st, [])
  ({ res.1 with clients := res.1.clients.filter (fun d => d.id ≠ c.id) }, res.2)

/-- The identity carried by a verified credential. -/
structure Identity where
  userId : String
  userName : String

/-- An inbound envelope after `JSON.parse`, classified by its `type` field;
`malformed` is a buffer on which `JSON.parse` throws.  `mcpToolCall` carries
the destructured `toolName` (a string) and `arguments`; `other` covers every
type outside the three recognised ones. -/
inductive InMsg where
  | malformed
  | authenticate (payload : JSValue) (requestId : Option String)
  | mcpToolCall (toolName : String) (args : JSValue) (requestId : Option String)
  | chatMessage (payload : JSValue) (requestId : Option String)
  | other (type_ : String) (requestId : Option String)

/-- JS `Map.set`: replace the entry with a matching id, else append. -/
def clientsSet (l : List Client) (c : Client) : List Client :=
  if l.any (fun d => d.id == c.id) then l.map (fun d => if d.id = c.id then c else d)
  else l ++ [c]

/-- `handleAuthenticate` plus its caller (src/index.ts lines 96-132,
234-270).  `verify` abstracts `jwt.verify` together with the payload-field
check, returning the thrown error message on failure.  On a missing or
non-string token the handler throws before verifying.  Success registers the
client and emits `auth_success`; failure emits `auth_failure` and closes with
policy-violation status 1008. -/
def handleAuthMessage (verify : String → Except String Identity) (st : ServerState)
    (connectionId : String) (payload : JSValue) :
    ServerState × Option Client × List Effect :=
  let token := payload.getField "token"
  if !(token.truthy && token.isString) then
    (st, none,
      [Effect.send connectionId
        ⟨"auth_failure", .authFailure "Authentication token missing or invalid", none, false⟩,
       Effect.close connectionId 1008 "Authentication failed"])
  else
    match verify token.asString with
    | .error e =>
      (st, none,
        [Effect.send connectionId ⟨"auth_failure", .authFailure e, none, false⟩,
         Effect.close connectionId 1008 "Authentication failed"])
    | .ok ident =>
      let newClient : Client :=
        ⟨connectionId, ident.userId, ident.userName, true, none, true⟩
      ({ st with clients := clientsSet st.clients newClient }, some newClient,
        [Effect.send connectionId
          ⟨"auth_success", .authSuccess ident.userId ident.userName connectionId, none, false⟩])

/-- The `!client || !client.isAuthenticated` guard: the bound client when the
connection is authenticated, `none` otherwise. -/
def authedClient : Option Client → Option Client
  | some c => if c.isAuthenticated then some c else none
  | none => none

/-- The `ws.on('message')` handler (src/index.ts lines 87-162) for one
connection: `client` is the closure variable (`null` before authentication).
A parse failure is answered with a generic invalid-format error in either
authentication state.  Unauthenticated connections may only authenticate;
anything else gets an `error` reply and stays open.  Authenticated traffic is
dispatched to the tool-call, chat, or unknown-type handlers. -/
def onMessage (verify : String → Except String Identity) (env : AiEnv)
    (aiHttp : Except String String) (st : ServerState) (connectionId : String)
    (client : Option Client) (m : InMsg) :
    ServerState × Option Client × List Effect :=
  match m with
  | .malformed =>
    (st, client,
      [Effect.send (match client with | some c => c.id | none => connectionId)
        ⟨"error", .text "Invalid message format", none, false⟩])
  | .authenticate payload rid =>
    match authedClient client with
    | some c =>
      (st, client, [Effect.send c.id ⟨"error", .text "Unknown message type", rid, false⟩])
    | none => handleAuthMessage verify st connectionId payload
  | .mcpToolCall toolName args requestId =>
    match authedClient client with
    | some c =>
      ((handleMcpToolCall env aiHttp st c toolName args requestId).1, client,
        (handleMcpToolCall env aiHttp st c toolName args requestId).2)
    | none =>
      (st, client,
        [Effect.send connectionId ⟨"error", .text "Authentication required", none, false⟩])
  | .chatMessage payload _ =>
    match authedClient client with
    | some c => ((handleChatMessage st c payload).1, client, (handleChatMessage st c payload).2)
    | none =>
      (st, client,
        [Effect.send connectionId ⟨"error", .text "Authentication required", none, false⟩])
  | .other _ requestId =>
    match authedClient client with
    | some c =>
      (st, client, [Effect.send c.id ⟨"error", .text "Unknown message type", requestId, false⟩])
    | none =>
      (st, client,
        [Effect.send connectionId ⟨"error", .text "Authentication required", none, false⟩])

/-- The authentication-deadline callback (src/index.ts lines 80-85): closes
with policy-violation status 1008 only while the connection is still
unauthenticated; a stray firing after authentication is a no-op. -/
def onAuthTimer (connectionId : String) (client : Option Client) : List Effect :=
  match client with
  | some c => if c.isAuthenticated then [] else [Effect.close connectionId 1008 "Authentication timeout"]
  | none => [Effect.close connectionId 1008 "Authentication timeout"]

/-- The session-registry invariant: every existing row has a non-empty
member set. -/
def registryInv (st : ServerState) : Prop :=
  ∀ p s, st.projects p = some s → s ≠ []

/-- Member sets hold no duplicate user ids (JS `Set` semantics). -/
def registryNodup (st : ServerState) : Prop :=
  ∀ p s, st.projects p = some s → s.Nodup

/-- The clients-map entry with connection id `i`. -/
def lookupClient (st : ServerState) (i : String) : Option Client :=
  st.clients.find? (fun d => d.id == i)

/-- Whether the per-connection closure variable is still unauthenticated
(the `!client || !client.isAuthenticated` guard). -/
def isUnauthState : Option Client → Bool
  | some c => !c.isAuthenticated
  | none => true

/-- The condition under which the authenticate path throws and hence closes:
the token is missing or not a string, or verification fails. -/
def authFailsB (verify : String → Except String Identity) (payload : JSValue) : Bool :=
  let token := payload.getField "token"
  if !(token.truthy && token.isString) then true
  else
    match verify token.asString with
    | .error _ => true
    | .ok _ => false

/-- Concrete fixture: user u1's connection "A", bound to session "P". -/
def wClientA : Client := ⟨"A", "u1", "Alice", true, some "P", true⟩

/-- Concrete fixture: user u2's connection "B", bound to session "P". -/
def wClientB : Client := ⟨"B", "u2", "Bob", true, some "P", true⟩

/-- Concrete fixture: a second simultaneous connection "A2" of user u1,
also bound to session "P". -/
def wClientA2 : Client := ⟨"A2", "u1", "Alice", true, some "P", true⟩

/-- Concrete fixture: two users in session "P". -/
def wState : ServerState :=
  ⟨[wClientA, wClientB], fun p => if p = "P" then some ["u1", "u2"] else none⟩

/-- Concrete fixture: user u1 holds connections "A" and "A2" in session "P";
the member set is keyed by user id so it holds only "u1". -/
def wStateQuirk : ServerState :=
  ⟨[wClientA, wClientA2], fun p => if p = "P" then some ["u1"] else none⟩

/-- Concrete fixture: no clients, no sessions. -/
def wStateEmpty : ServerState := ⟨[], fun _ => none⟩

/-- Concrete fixture: the state reachable after the user-eviction quirk —
connection "A2" is still open and bound to session "P", but the session row
was deleted when the user's other connection closed. -/
def wStateGhost : ServerState := ⟨[wClientA2], fun _ => none⟩

/-- Concrete fixture: a verifier accepting exactly the token "good". -/
def wVerify : String → Except String Identity :=
  fun t => if t = "good" then .ok ⟨"u1", "Alice"⟩ else .error "Authentication failed: invalid signature"

/-- Concrete fixture: neither provider credential configured. -/
def wAiEnv : AiEnv := ⟨none, none⟩

/-- Concrete fixture: a successful upstream AI response. -/
def wAiHttp : Except String String := .ok "ok"

section CountingLemmas

/-- In a list of clients with pairwise-distinct connection ids, filtering by a
predicate and counting entries with a fixed member's id yields the indicator
of the predicate at that member. -/
theorem countP_id_filter (l : List Client) (p : Client → Bool) (c : Client)
    (hn : (l.map Client.id).Nodup) (hc : c ∈ l) :
    (l.filter p).countP (fun d => d.id == c.id) = if p c then 1 else 0 := by
  induction l with
  | nil => cases hc
  | cons a tl ih =>
    have hn' : (tl.map Client.id).Nodup := (List.nodup_cons.mp hn).2
    have hna : a.id ∉ tl.map Client.id := (List.nodup_cons.mp hn).1
    rcases List.mem_cons.mp hc with rfl | hct
    · have htl : (tl.filter p).countP (fun d => d.id == c.id) = 0 := by
        rw [List.countP_eq_zero]
        intro d hd
        have hdid : d.id ∈ tl.map Client.id :=
          List.mem_map.mpr ⟨d, List.mem_of_mem_filter hd, rfl⟩
        simp only [beq_iff_eq]
        intro h
        exact hna (h ▸ hdid)
      by_cases hp : p c
      · rw [List.filter_cons_of_pos hp, List.countP_cons_of_pos _ _ (by simp), htl, if_pos hp]
      · rw [List.filter_cons_of_neg (by simpa using hp), htl, if_neg hp]
    · have hac : a.id ≠ c.id := by
        intro h
        exact hna (h ▸ List.mem_map.mpr ⟨c, hct, rfl⟩)
      have hrec := ih hn' hct
      by_cases hp : p a
      · rw [List.filter_cons_of_pos hp, List.countP_cons_of_neg _ _ (by simpa using hac), hrec]
      · rw [List.filter_cons_of_neg (by simpa using hp), hrec]

/-- Per-recipient send count of one `broadcast` call, for a client present in
the registry: the indicator of the delivery condition. -/
theorem broadcast_sendCountTo (st : ServerState) (S t : String) (pl : OutPayload)
    (ex : Option String) (c : Client)
    (hn : (st.clients.map Client.id).Nodup) (hc : c ∈ st.clients) :
    sendCountTo (broadcast st S t pl ex) c.id =
      if deliverCond S (members st S) ex c ∧ (st.projects S).isSome then 1 else 0 := by
  unfold broadcast sendCountTo members
  cases hS : st.projects S with
  | none => simp
  | some mem =>
    simp only [Option.getD_some, Option.isSome_some, and_true]
    rw [List.countP_cons_of_neg _ _ (by simp)]
    rw [List.countP_map]
    have := countP_id_filter st.clients (deliverCond S mem ex) c hn hc
    unfold deliverCond at this ⊢
    convert this using 2

/-- `broadcast` never sends to the excluded connection id. -/
theorem broadcast_excluded (st : ServerState) (S t : String) (pl : OutPayload)
    (i : String) :
    sendCountTo (broadcast st S t pl (some i)) i = 0 := by
  unfold broadcast sendCountTo
  cases hS : st.projects S with
  | none => rfl
  | some mem =>
    rw [List.countP_cons_of_neg _ _ (by simp)]
    rw [List.countP_map, List.countP_eq_zero]
    intro c hcf
    have hcond := List.of_mem_filter hcf
    simp only [Bool.and_eq_true, Bool.not_eq_true'] at hcond
    intro h
    have hid : (c.id == i) = true := h
    have hfalse := hcond.1.2
    rw [beq_iff_eq.mp hid] at hfalse
    simp at hfalse

/-- Counts of sends distribute over effect-list concatenation. -/
theorem sendCountType_append (a b : List Effect) (i t : String) :
    sendCountType (a ++ b) i t = sendCountType a i t + sendCountType b i t := by
  simp [sendCountType, List.countP_append]

/-- Every `send` effect of a `broadcast` carries the broadcast envelope:
type `t`, payload `pl`, no request id, not an error. -/
theorem broadcast_send_env (st : ServerState) (S t : String) (pl : OutPayload)
    (ex : Option String) (i : String) (env : OutEnvelope)
    (h : Effect.send i env ∈ broadcast st S t pl ex) :
    env = ⟨t, pl, none, false⟩ := by
  unfold broadcast at h
  split at h
  · cases h
  · rcases List.mem_cons.mp h with h1 | h2
    · exact Effect.noConfusion h1
    · rcases List.mem_map.mp h2 with ⟨c, _, heq⟩
      injection heq with _ h2
      exact h2.symm

/-- A `broadcast` of envelope type `t` contributes no sends of another type. -/
theorem broadcast_sendCountType_ne (st : ServerState) (S t : String) (pl : OutPayload)
    (ex : Option String) (i t' : String) (hne : t' ≠ t) :
    sendCountType (broadcast st S t pl ex) i t' = 0 := by
  unfold sendCountType
  rw [List.countP_eq_zero]
  intro e he
  cases e with
  | send j env =>
    have henv := broadcast_send_env st S t pl ex j env he
    subst henv
    simp only [Bool.and_eq_true, beq_iff_eq]
    rintro ⟨-, h⟩
    exact hne h.symm
  | telemetry a b => simp
  | close a b r => simp
  | outbound a b k => simp

/-- Typed per-recipient send count of one `broadcast` call, for the
broadcast's own envelope type. -/
theorem broadcast_sendCountType_eq (st : ServerState) (S t : String) (pl : OutPayload)
    (ex : Option String) (c : Client)
    (hn : (st.clients.map Client.id).Nodup) (hc : c ∈ st.clients) :
    sendCountType (broadcast st S t pl ex) c.id t =
      if deliverCond S (members st S) ex c ∧ (st.projects S).isSome then 1 else 0 := by
  have hto := broadcast_sendCountTo st S t pl ex c hn hc
  unfold sendCountTo at hto
  unfold sendCountType
  rw [← hto]
  apply List.countP_congr
  intro e he
  cases e with
  | send j env =>
    have henv := broadcast_send_env st S t pl ex j env he
    subst henv
    simp
  | telemetry a b => simp
  | close a b r => simp
  | outbound a b k => simp

/-- `broadcast` contributes no sends of any type to the excluded id. -/
theorem broadcast_sendCountType_excluded (st : ServerState) (S t : String)
    (pl : OutPayload) (i t' : String) :
    sendCountType (broadcast st S t pl (some i)) i t' = 0 := by
  have h := broadcast_excluded st S t pl i
  unfold sendCountTo at h
  unfold sendCountType
  have hle := List.countP_mono_left (l := broadcast st S t pl (some i))
    (p := fun e => match e with
      | .send j env => j == i && env.type == t'
      | _ => false)
    (q := fun e => match e with
      | .send j _ => j == i
      | _ => false)
    (by intro e _ hp
        cases e with
        | send j env =>
          simp only [Bool.and_eq_true] at hp
          exact hp.1
        | telemetry a b => exact hp
        | close a b r => exact hp
        | outbound a b k => exact hp)
  omega

/-- Per-recipient count of a `sendResponse`. -/
theorem sendCountType_sendResponse (c : Client) (pl : OutPayload) (rid : Option String)
    (i t : String) :
    sendCountType (sendResponse c pl rid) i t =
      if c.wsOpen = true ∧ c.id = i ∧ t = "mcp_tool_response" then 1 else 0 := by
  unfold sendResponse sendCountType
  by_cases hw : c.wsOpen = true
  · rw [if_pos hw]
    by_cases hi : c.id = i
    · by_cases ht : t = "mcp_tool_response"
      · rw [if_pos ⟨hw, hi, ht⟩]
        simp [hi, ht, List.countP_cons]
      · rw [if_neg (by tauto)]
        simp only [List.countP_cons, List.countP_nil]
        have : ("mcp_tool_response" == t) = false := by
          simp only [beq_eq_false_iff_ne]
          exact fun h => ht h.symm
        simp [this]
    · rw [if_neg (by tauto)]
      simp only [List.countP_cons, List.countP_nil]
      have : (c.id == i) = false := by
        simp only [beq_eq_false_iff_ne]
        exact hi
      simp [this]
  · rw [if_neg hw, if_neg (by tauto)]
    rfl

/-- Per-recipient count of a `sendError`. -/
theorem sendCountType_sendError (c : Client) (e : String) (rid : Option String)
    (i t : String) :
    sendCountType (sendError c e rid) i t =
      if c.wsOpen = true ∧ c.id = i ∧ t = "mcp_tool_response" then 1 else 0 := by
  unfold sendError sendCountType
  by_cases hw : c.wsOpen = true
  · rw [if_pos hw]
    by_cases hi : c.id = i
    · by_cases ht : t = "mcp_tool_response"
      · rw [if_pos ⟨hw, hi, ht⟩]
        simp [hi, ht, List.countP_cons]
      · rw [if_neg (by tauto)]
        simp only [List.countP_cons, List.countP_nil]
        have : ("mcp_tool_response" == t) = false := by
          simp only [beq_eq_false_iff_ne]
          exact fun h => ht h.symm
        simp [this]
    · rw [if_neg (by tauto)]
      simp only [List.countP_cons, List.countP_nil]
      have : (c.id == i) = false := by
        simp only [beq_eq_false_iff_ne]
        exact hi
      simp [this]
  · rw [if_neg hw, if_neg (by tauto)]
    rfl

end CountingLemmas

section StructuralLemmas

/-- `hasClose` distributes over concatenation. -/
theorem hasClose_append (a b : List Effect) :
    hasClose (a ++ b) = (hasClose a || hasClose b) := by
  simp [hasClose, List.any_append]

/-- `broadcast` emits no close. -/
theorem hasClose_broadcast (st : ServerState) (S t : String) (pl : OutPayload)
    (ex : Option String) : hasClose (broadcast st S t pl ex) = false := by
  unfold hasClose broadcast
  split
  · rfl
  · rw [List.any_eq_false]
    intro e he
    rcases List.mem_cons.mp he with rfl | h2
    · simp
    · rcases List.mem_map.mp h2 with ⟨c, _, rfl⟩
      simp

/-- `sendResponse` emits no close. -/
theorem hasClose_sendResponse (c : Client) (pl : OutPayload) (rid : Option String) :
    hasClose (sendResponse c pl rid) = false := by
  unfold hasClose sendResponse
  split <;> simp

/-- `sendError` emits no close. -/
theorem hasClose_sendError (c : Client) (e : String) (rid : Option String) :
    hasClose (sendError c e rid) = false := by
  unfold hasClose sendError
  split <;> simp

/-- Leaving the old project on a session switch emits no close. -/
theorem hasClose_removeFromOldProject (st : ServerState) (c : Client) (pid : String) :
    hasClose (removeFromOldProject st c pid).2 = false := by
  unfold removeFromOldProject
  rcases c.projectId with _ | oldPid
  · rfl
  · dsimp only
    split
    · rcases hS : st.projects oldPid with _ | oldSet
      · rfl
      · dsimp only
        split
        · rfl
        · exact hasClose_broadcast _ _ _ _ _
    · rfl

/-- `handleProjectJoin` emits no close. -/
theorem hasClose_handleProjectJoin (st : ServerState) (c : Client) (args : JSValue)
    (rid : Option String) : hasClose (handleProjectJoin st c args rid).2 = false := by
  unfold handleProjectJoin
  dsimp only
  split
  · exact hasClose_sendError _ _ _
  · dsimp only
    rw [hasClose_append, hasClose_append, hasClose_removeFromOldProject,
      hasClose_sendResponse, hasClose_broadcast]
    rfl

/-- `handleEditSend` emits no close. -/
theorem hasClose_handleEditSend (st : ServerState) (c : Client) (args : JSValue)
    (rid : Option String) : hasClose (handleEditSend st c args rid).2 = false := by
  unfold handleEditSend
  rcases c.projectId with _ | pid
  · exact hasClose_sendError _ _ _
  · dsimp only
    split
    · exact hasClose_sendError _ _ _
    · rw [hasClose_append, hasClose_broadcast, hasClose_sendResponse]
      rfl

/-- `handleCursorUpdate` emits no close. -/
theorem hasClose_handleCursorUpdate (st : ServerState) (c : Client) (args : JSValue)
    (rid : Option String) : hasClose (handleCursorUpdate st c args rid).2 = false := by
  unfold handleCursorUpdate
  rcases c.projectId with _ | pid
  · exact hasClose_sendError _ _ _
  · dsimp only
    split
    · exact hasClose_sendError _ _ _
    · exact hasClose_broadcast _ _ _ _ _

/-- `handleAiRequest` emits no close. -/
theorem hasClose_handleAiRequest (env : AiEnv) (ai : Except String String)
    (st : ServerState) (c : Client) (toolName : String) (rid : Option String) :
    hasClose (handleAiRequest env ai st c toolName rid).2 = false := by
  unfold handleAiRequest
  rcases c.projectId with _ | pid
  · exact hasClose_sendError _ _ _
  · dsimp only
    rcases pickApiKey env with _ | k
    · exact hasClose_sendError _ _ _
    · dsimp only
      split
      · rcases ai with e | txt
        · rw [hasClose_append, hasClose_sendError]
          rfl
        · rw [hasClose_append, hasClose_sendResponse]
          rfl
      · split
        · rcases ai with e | txt
          · rw [hasClose_append, hasClose_sendError]
            rfl
          · rw [hasClose_append, hasClose_sendResponse]
            rfl
        · exact hasClose_sendError _ _ _

/-- `handleMcpToolCall` emits no close. -/
theorem hasClose_handleMcpToolCall (env : AiEnv) (ai : Except String String)
    (st : ServerState) (c : Client) (toolName : String) (args : JSValue)
    (rid : Option String) :
    hasClose (handleMcpToolCall env ai st c toolName args rid).2 = false := by
  unfold handleMcpToolCall
  split
  · exact hasClose_handleProjectJoin _ _ _ _
  · split
    · exact hasClose_handleEditSend _ _ _ _
    · split
      · exact hasClose_handleAiRequest _ _ _ _ _ _
      · split
        · exact hasClose_handleCursorUpdate _ _ _ _
        · exact hasClose_sendError _ _ _

/-- `handleChatMessage` emits no close. -/
theorem hasClose_handleChatMessage (st : ServerState) (c : Client) (payload : JSValue) :
    hasClose (handleChatMessage st c payload).2 = false := by
  unfold handleChatMessage
  rcases c.projectId with _ | pid
  · exact hasClose_sendError _ _ _
  · dsimp only
    split
    · exact hasClose_sendError _ _ _
    · exact hasClose_broadcast _ _ _ _ _

/-- The added user is a member after `setAdd`. -/
theorem setAdd_mem (s : List String) (u : String) : u ∈ setAdd s u := by
  unfold setAdd
  split
  · assumption
  · exact List.mem_append_right _ (List.mem_singleton.mpr rfl)

/-- `setAdd` never yields an empty set. -/
theorem setAdd_ne_nil (s : List String) (u : String) : setAdd s u ≠ [] := by
  intro h
  have hmem := setAdd_mem s u
  rw [h] at hmem
  exact absurd hmem (List.not_mem_nil u)

/-- `setClientProject` preserves the connection-id sequence. -/
theorem setClientProject_map_id (l : List Client) (i : String) (p : Option String) :
    (setClientProject l i p).map Client.id = l.map Client.id := by
  unfold setClientProject
  rw [List.map_map]
  apply List.map_congr_left
  intro c _
  by_cases h : c.id = i <;> simp [h]

/-- An entry whose id differs from the rebound one is untouched by
`setClientProject`. -/
theorem mem_setClientProject_of_ne (l : List Client) (i : String) (p : Option String)
    (d : Client) (hd : d ∈ l) (hne : d.id ≠ i) : d ∈ setClientProject l i p := by
  unfold setClientProject
  have : (if d.id = i then { d with projectId := p } else d) = d := if_neg hne
  exact this ▸ List.mem_map_of_mem _ hd

/-- Looking up the rebound id after `setClientProject` returns the rebound
entry, given distinct ids. -/
theorem lookup_setClientProject (l : List Client) (c : Client) (p : Option String)
    (hn : (l.map Client.id).Nodup) (hc : c ∈ l) :
    (setClientProject l c.id p).find? (fun d => d.id == c.id) =
      some { c with projectId := p } := by
  induction l with
  | nil => cases hc
  | cons a tl ih =>
    have hn' : (tl.map Client.id).Nodup := (List.nodup_cons.mp hn).2
    have hna : a.id ∉ tl.map Client.id := (List.nodup_cons.mp hn).1
    rcases List.mem_cons.mp hc with rfl | hct
    · unfold setClientProject
      rw [List.map_cons]
      rw [if_pos rfl, List.find?_cons_of_pos _ (by simp)]
    · have hac : a.id ≠ c.id := by
        intro h
        exact hna (h ▸ List.mem_map.mpr ⟨c, hct, rfl⟩)
      unfold setClientProject
      rw [List.map_cons]
      rw [if_neg hac, List.find?_cons_of_neg _ (by simp [hac])]
      exact ih hn' hct

end StructuralLemmas

/-- C1: broadcast delivers to exactly the open member-bound connections,
once each, never to the excluded one. -/
theorem C1_broadcast_exact_delivery (st : ServerState) (S t : String)
    (pl : OutPayload) (ex : Option String) (c : Client)
    (hn : (st.clients.map Client.id).Nodup)
    (hauth : ∀ d ∈ st.clients, d.isAuthenticated = true)
    (hc : c ∈ st.clients) :
    (sendCountTo (broadcast st S t pl ex) c.id =
      if c.wsOpen = true ∧ c.projectId = some S ∧ c.userId ∈ members st S ∧ ex ≠ some c.id
      then 1 else 0) ∧
    (∀ i : String, sendCountTo (broadcast st S t pl (some i)) i = 0) := by
  constructor
  · rw [broadcast_sendCountTo st S t pl ex c hn hc]
    unfold deliverCond
    by_cases hcase : c.wsOpen = true ∧ c.projectId = some S ∧ c.userId ∈ members st S ∧ ex ≠ some c.id
    · rw [if_pos hcase, if_pos]
      obtain ⟨h1, h2, h3, h4⟩ := hcase
      refine ⟨?_, ?_⟩
      · simp only [Bool.and_eq_true]
        refine ⟨⟨⟨⟨hauth c hc, by simp [h2]⟩, by simpa using h3⟩, ?_⟩, h1⟩
        simp only [Bool.not_eq_true', beq_eq_false_iff_ne]
        exact fun h => h4 h
      · unfold members at h3
        cases hS : st.projects S with
        | none => rw [hS] at h3; simp at h3
        | some _ => simp
    · rw [if_neg hcase, if_neg]
      intro ⟨hcond, hsome⟩
      simp only [Bool.and_eq_true, Bool.not_eq_true', beq_eq_false_iff_ne] at hcond
      obtain ⟨⟨⟨⟨_, hbound⟩, hmem⟩, hex⟩, hopen⟩ := hcond
      exact hcase ⟨hopen, by simpa using hbound, by simpa using hmem, fun h => hex h⟩
  · intro i
    exact broadcast_excluded st S t pl i

/-- Witness for C1 at a concrete two-member session. -/
theorem C1_broadcast_exact_delivery_witness :
    sendCountTo (broadcast wState "P" "new_chat_message" (.text "x") none) "A" = 1 := by
  have h := (C1_broadcast_exact_delivery wState "P" "new_chat_message" (.text "x") none wClientA
    (by decide) (by decide) (by decide)).1
  exact h.trans (by decide)

section RegistryLemmas

/-- Point update of the registry function with a non-empty set preserves the
non-emptiness of all rows. -/
theorem inv_fun_update (g : String → Option (List String)) (k : String) (v : List String)
    (hg : ∀ p s, g p = some s → s ≠ []) (hv : v ≠ []) :
    ∀ p s, (if p = k then some v else g p) = some s → s ≠ [] := by
  intro p s hp
  split at hp
  · cases hp
    exact hv
  · exact hg p s hp

/-- Point deletion from the registry function preserves the non-emptiness of
all rows. -/
theorem inv_fun_delete (g : String → Option (List String)) (k : String)
    (hg : ∀ p s, g p = some s → s ≠ []) :
    ∀ p s, (if p = k then none else g p) = some s → s ≠ [] := by
  intro p s hp
  split at hp
  · cases hp
  · exact hg p s hp

/-- Leaving the old project never touches the clients map. -/
theorem removeFromOldProject_clients (st : ServerState) (c : Client) (newPid : String) :
    (removeFromOldProject st c newPid).1.clients = st.clients := by
  unfold removeFromOldProject
  rcases c.projectId with _ | oldPid
  · rfl
  · dsimp only
    split
    · rcases st.projects oldPid with _ | oldSet
      · rfl
      · dsimp only
        split <;> rfl
    · rfl

/-- Leaving the old project never touches the row of the new project id. -/
theorem removeFromOldProject_projects_new (st : ServerState) (c : Client) (newPid : String) :
    (removeFromOldProject st c newPid).1.projects newPid = st.projects newPid := by
  unfold removeFromOldProject
  rcases c.projectId with _ | oldPid
  · rfl
  · dsimp only
    split
    · rcases st.projects oldPid with _ | oldSet
      · rfl
      · dsimp only
        split
        · dsimp only
          rw [if_neg]
          intro h
          exact absurd h.symm (by assumption)
        · dsimp only
          rw [if_neg]
          intro h
          exact absurd h.symm (by assumption)
    · rfl

/-- Leaving the old project preserves the registry invariant. -/
theorem registryInv_removeFromOldProject (st : ServerState) (c : Client) (newPid : String)
    (h : registryInv st) : registryInv (removeFromOldProject st c newPid).1 := by
  unfold removeFromOldProject
  rcases c.projectId with _ | oldPid
  · exact h
  · dsimp only
    split
    · rcases st.projects oldPid with _ | oldSet
      · exact h
      · dsimp only
        split
        · exact inv_fun_delete st.projects oldPid h
        · exact inv_fun_update st.projects oldPid _ h (by assumption)
    · exact h

end RegistryLemmas

/-- C2: the join and close operations preserve the "rows are non-empty"
registry invariant; a member set that reaches empty has its row deleted by
the close cleanup; and a join to a session id with no row starts from an
empty member set, producing the singleton of the joiner. -/
theorem C2_registry_row_iff_nonempty :
    (∀ st c args rid, registryInv st → registryInv (handleProjectJoin st c args rid).1) ∧
    (∀ st c, registryInv st → registryInv (handleClose st c).1) ∧
    (∀ st c pid, c.projectId = some pid → (members st pid).erase c.userId = [] →
       (handleClose st c).1.projects pid = none) ∧
    (∀ st c args rid Q, args.getField "projectId" = JSValue.str Q → Q ≠ "" →
       st.projects Q = none →
       (handleProjectJoin st c args rid).1.projects Q = some [c.userId]) := by
  refine ⟨?_, ?_, ?_, ?_⟩
  · intro st c args rid h
    unfold handleProjectJoin
    dsimp only
    split
    · exact h
    · dsimp only
      exact inv_fun_update _ _ _ (registryInv_removeFromOldProject st c _ h)
        (setAdd_ne_nil _ _)
  · intro st c h
    unfold handleClose
    dsimp only
    rcases c.projectId with _ | pid
    · exact h
    · dsimp only
      rcases st.projects pid with _ | projectClients
      · exact h
      · dsimp only
        split
        · exact inv_fun_delete st.projects pid h
        · exact inv_fun_update st.projects pid _ h (by assumption)
  · intro st c pid hpid hempty
    unfold handleClose
    rw [hpid]
    dsimp only
    rcases hS : st.projects pid with _ | projectClients
    · exact hS
    · dsimp only
      unfold members at hempty
      rw [hS] at hempty
      simp only [Option.getD_some] at hempty
      rw [if_pos hempty]
      dsimp only
      rw [if_pos rfl]
  · intro st c args rid Q hargs hQ hrow
    unfold handleProjectJoin
    rw [hargs]
    dsimp only
    rw [if_neg (by simp [JSValue.truthy, JSValue.isString, hQ])]
    dsimp only [JSValue.asString]
    rw [if_pos rfl, removeFromOldProject_projects_new, hrow]
    simp [setAdd]

/-- Witness for C2: a fresh join creates a singleton member set. -/
theorem C2_registry_row_iff_nonempty_witness :
    (handleProjectJoin wState wClientA (.obj [("projectId", .str "Q")]) none).1.projects "Q"
      = some ["u1"] := by
  exact C2_registry_row_iff_nonempty.2.2.2 wState wClientA (.obj [("projectId", .str "Q")])
    none "Q" rfl (by decide) (by decide)

/-- `sendError` attempts no outbound call. -/
theorem hasOutbound_sendError (c : Client) (e : String) (rid : Option String) :
    hasOutbound (sendError c e rid) = false := by
  unfold hasOutbound sendError
  split <;> simp

/-- C3 counterexample: with the OpenAI credential unset but the Anthropic
credential configured, `ai:request_openai` from an in-session client does NOT
fail with a provider-unconfigured error — the code falls back to
`OPENAI_API_KEY || ANTHROPIC_API_KEY` and attempts the outbound OpenAI call,
sending the Anthropic key as the bearer token. -/
theorem C3_counterexample :
    (handleAiRequest ⟨none, some "anthropic-key"⟩ wAiHttp wState wClientA
        "ai:request_openai" none).2.head? =
      some (Effect.outbound "https://api.openai.com/v1/chat/completions" "Authorization"
        "anthropic-key") ∧
    hasOutbound (handleAiRequest ⟨none, some "anthropic-key"⟩ wAiHttp wState wClientA
        "ai:request_openai" none).2 = true :=
  ⟨rfl, rfl⟩

/-- C3 amended: the AI proxy fails with the not-configured error (and attempts
no outbound call) exactly when NEITHER the OpenAI nor the Anthropic credential
is truthy — not when the selected provider's own credential is missing; when
any credential is available, a known-provider tool always attempts the
outbound call with that credential. -/
theorem C3_unconfigured_only_when_no_key_at_all (env : AiEnv) (ai : Except String String)
    (st : ServerState) (c : Client) (toolName : String) (rid : Option String) (pid : String)
    (hpid : c.projectId = some pid) :
    (pickApiKey env = none ↔ jsKey env.openaiKey = none ∧ jsKey env.anthropicKey = none) ∧
    (pickApiKey env = none →
      (handleAiRequest env ai st c toolName rid).2 =
        sendError c ("AI request failed: API key for " ++ toolName
          ++ " is not configured in environment variables.") rid ∧
      hasOutbound (handleAiRequest env ai st c toolName rid).2 = false) ∧
    (∀ k, pickApiKey env = some k →
      (strIncludes toolName "openai" = true ∨ strIncludes toolName "anthropic" = true) →
      hasOutbound (handleAiRequest env ai st c toolName rid).2 = true) := by
  refine ⟨?_, ?_, ?_⟩
  · unfold pickApiKey
    cases h : jsKey env.openaiKey with
    | none => simp [h]
    | some k => simp [h]
  · intro hnone
    unfold handleAiRequest
    rw [hpid, hnone]
    exact ⟨rfl, hasOutbound_sendError _ _ _⟩
  · intro k hk hknown
    unfold handleAiRequest
    rw [hpid, hk]
    dsimp only
    rcases hop : strIncludes toolName "openai" with _ | _
    · rcases han : strIncludes toolName "anthropic" with _ | _
      · rcases hknown with h | h
        · rw [hop] at h
          cases h
        · rw [han] at h
          cases h
      · rw [if_pos rfl]
        rcases ai with e | txt <;> rfl
    · rw [if_pos rfl]
      rcases ai with e | txt <;> rfl

/-- Witness for the amended C3 at both-credentials-missing. -/
theorem C3_unconfigured_witness :
    (handleAiRequest wAiEnv wAiHttp wState wClientA "ai:request_openai" none).2 =
      sendError wClientA ("AI request failed: API key for " ++ "ai:request_openai"
        ++ " is not configured in environment variables.") none ∧
    hasOutbound (handleAiRequest wAiEnv wAiHttp wState wClientA "ai:request_openai" none).2
      = false :=
  (C3_unconfigured_only_when_no_key_at_all wAiEnv wAiHttp wState wClientA "ai:request_openai"
    none "P" rfl).2.1 rfl

/-- C7 counterexample: a `broadcast` call for a session id with no registry
row (reachable after the user-eviction quirk) pushes ZERO telemetry
notifications, not one: the function returns before the telemetry push. -/
theorem C7_counterexample :
    telemetryCount (broadcast wStateGhost "P" "edit_applied" (.text "x") none) = 0 := rfl

/-- C7 amended: every `broadcast` call whose session id has a registry row
pushes exactly one telemetry notification {sessionId, envelope type,
timestamp}, independent of recipient count (including zero); a call for a
session id with no row returns early and pushes none. -/
theorem C7_telemetry_iff_row (st : ServerState) (S t : String) (pl : OutPayload)
    (ex : Option String) :
    telemetryCount (broadcast st S t pl ex) = if (st.projects S).isSome then 1 else 0 := by
  unfold telemetryCount broadcast
  cases hS : st.projects S with
  | none => rfl
  | some mem =>
    simp only [Option.isSome_some, if_true]
    rw [List.countP_cons_of_pos _ _ (by simp)]
    rw [List.countP_map]
    rw [List.countP_eq_zero.mpr (by intro c _; simp)]

/-- C10: for EVERY open in-session connection and well-formed `edit:send`,
the sender receives exactly one `mcp_tool_response` send — the success reply
"Edit broadcasted" — regardless of the registry: no hypothesis on the
session row is made.  In particular, in the reachable post-eviction state
where the bound session id has no registry row, the whole effect list IS
that single success reply: the broadcast delivers to no recipient and
pushes no telemetry, yet the sender is still told the edit was broadcast. -/
theorem C10_edit_reply_unconditional (st : ServerState) (c : Client) (P : String)
    (args : JSValue) (f : String) (xs : List JSValue) (rid : Option String)
    (hP : c.projectId = some P)
    (hopen : c.wsOpen = true)
    (hf : args.getField "fileId" = .str f) (hfne : f ≠ "")
    (hcd : args.getField "changeData" = .arr xs) :
    sendCountType (handleEditSend st c args rid).2 c.id "mcp_tool_response" = 1 ∧
    Effect.send c.id ⟨"mcp_tool_response", .result true "Edit broadcasted", rid, false⟩
      ∈ (handleEditSend st c args rid).2 ∧
    (st.projects P = none →
      handleEditSend st c args rid =
        (st, [Effect.send c.id
          ⟨"mcp_tool_response", .result true "Edit broadcasted", rid, false⟩])) := by
  have hred : handleEditSend st c args rid =
      (st, broadcast st P "edit_applied" (.editApplied f xs c.userId c.userName) (some c.id)
        ++ sendResponse c (.result true "Edit broadcasted") rid) := by
    unfold handleEditSend
    rw [hP]
    dsimp only
    rw [hf, hcd]
    rw [if_neg (by simp [JSValue.truthy, JSValue.isString, JSValue.isArray, hfne])]
    rfl
  refine ⟨?_, ?_, ?_⟩
  · rw [hred]
    dsimp only
    rw [sendCountType_append, broadcast_sendCountType_excluded]
    rw [sendCountType_sendResponse, if_pos ⟨hopen, rfl, rfl⟩]
  · rw [hred]
    dsimp only
    apply List.mem_append_right
    unfold sendResponse
    rw [if_pos hopen]
    exact List.mem_singleton.mpr rfl
  · intro hrow
    rw [hred]
    unfold broadcast
    rw [hrow]
    unfold sendResponse
    rw [if_pos hopen]
    rfl

/-- Witness for C10: the success reply is sent both with the session row
present (exactly one reply to the sender) and in the concrete post-eviction
state with no row, where it is the only effect. -/
theorem C10_edit_reply_unconditional_witness :
    sendCountType (handleEditSend wState wClientA
        (.obj [("fileId", .str "a.ts"), ("changeData", .arr [])]) (some "r8")).2
      "A" "mcp_tool_response" = 1 ∧
    handleEditSend wStateGhost wClientA2
        (.obj [("fileId", .str "a.ts"), ("changeData", .arr [])]) (some "r9") =
      (wStateGhost,
        [Effect.send "A2" ⟨"mcp_tool_response", .result true "Edit broadcasted",
          some "r9", false⟩]) := by
  constructor
  · exact (C10_edit_reply_unconditional wState wClientA "P"
      (.obj [("fileId", .str "a.ts"), ("changeData", .arr [])]) "a.ts" [] (some "r8")
      rfl rfl rfl (by decide) rfl).1
  · exact (C10_edit_reply_unconditional wStateGhost wClientA2 "P"
      (.obj [("fileId", .str "a.ts"), ("changeData", .arr [])]) "a.ts" [] (some "r9")
      rfl rfl rfl (by decide) rfl).2.2 rfl

/-- The close cleanup removes exactly the closing connection's entry from the
clients map. -/
theorem handleClose_clients (st : ServerState) (c : Client) :
    (handleClose st c).1.clients = st.clients.filter (fun d => d.id ≠ c.id) := by
  unfold handleClose
  rcases c.projectId with _ | pid
  · rfl
  · dsimp only
    rcases st.projects pid with _ | projectClients
    · rfl
    · dsimp only
      split <;> rfl

/-- C8: closing one of a user's several connections in session P deletes the
user id from P's member set entirely (JS Sets are keyed by user id, not
connection id), so the user's other still-open connection bound to P stops
receiving every subsequent broadcast to P. -/
theorem C8_close_evicts_other_connections (st : ServerState) (a b : Client) (P : String)
    (hn : (st.clients.map Client.id).Nodup)
    (hb : b ∈ st.clients) (hab : b.id ≠ a.id)
    (hap : a.projectId = some P)
    (hsame : b.userId = a.userId)
    (hnset : registryNodup st) :
    a.userId ∉ members (handleClose st a).1 P ∧
    b ∈ (handleClose st a).1.clients ∧
    (∀ t pl ex, sendCountTo (broadcast (handleClose st a).1 P t pl ex) b.id = 0) := by
  have hcl := handleClose_clients st a
  have h2 : b ∈ (handleClose st a).1.clients := by
    rw [hcl]
    rw [List.mem_filter]
    exact ⟨hb, by simp [hab]⟩
  have hn' : ((handleClose st a).1.clients.map Client.id).Nodup := by
    rw [hcl]
    exact ((List.filter_sublist st.clients).map Client.id).nodup hn
  have h1 : a.userId ∉ members (handleClose st a).1 P := by
    unfold handleClose
    rw [hap]
    dsimp only
    rcases hS : st.projects P with _ | s
    · unfold members
      dsimp only
      rw [hS]
      simp
    · have hsnd : s.Nodup := hnset P s hS
      dsimp only
      split
      · unfold members
        dsimp only
        rw [if_pos rfl]
        simp
      · unfold members
        dsimp only
        rw [if_pos rfl]
        intro hmem
        exact absurd rfl ((hsnd.mem_erase_iff.mp hmem).1)
  refine ⟨h1, h2, ?_⟩
  intro t pl ex
  rw [broadcast_sendCountTo (handleClose st a).1 P t pl ex b hn' h2]
  rw [if_neg]
  rintro ⟨hcond, -⟩
  unfold deliverCond at hcond
  simp only [Bool.and_eq_true] at hcond
  have hcontains := hcond.1.1.2
  rw [List.contains_iff_exists_mem_beq] at hcontains
  rcases hcontains with ⟨u, hu, hbeq⟩
  rw [beq_iff_eq] at hbeq
  rw [← hbeq, hsame] at hu
  exact h1 hu

/-- Witness for C8 in the concrete two-connections-one-user state. -/
theorem C8_close_evicts_other_connections_witness :
    "u1" ∉ members (handleClose wStateQuirk wClientA).1 "P" ∧
    wClientA2 ∈ (handleClose wStateQuirk wClientA).1.clients ∧
    sendCountTo (broadcast (handleClose wStateQuirk wClientA).1 "P" "new_chat_message"
      (.text "x") none) "A2" = 0 := by
  have h := C8_close_evicts_other_connections wStateQuirk wClientA wClientA2 "P"
    (by decide) (by decide) (by decide) rfl rfl
    (by
      intro p s hp
      by_cases hpP : p = "P"
      · subst hpP
        simp only [wStateQuirk, if_pos rfl] at hp
        cases hp
        decide
      · simp only [wStateQuirk, if_neg hpP] at hp
        cases hp)
  exact ⟨h.1, h.2.1, h.2.2 "new_chat_message" (.text "x") none⟩

/-- The typed per-recipient count of a broadcast, with the delivery condition
spelled out: the recipient's socket is open, it is bound to the session, its
user id is a member, and it is not the excluded connection.  Assumes the
clients-map invariants (distinct connection ids, all entries authenticated). -/
theorem broadcast_sendCountType_formula (st : ServerState) (S t : String)
    (pl : OutPayload) (ex : Option String) (c : Client)
    (hn : (st.clients.map Client.id).Nodup)
    (hauth : ∀ d ∈ st.clients, d.isAuthenticated = true)
    (hc : c ∈ st.clients) :
    sendCountType (broadcast st S t pl ex) c.id t =
      if c.wsOpen = true ∧ c.projectId = some S ∧ c.userId ∈ members st S ∧ ex ≠ some c.id
      then 1 else 0 := by
  rw [broadcast_sendCountType_eq st S t pl ex c hn hc]
  by_cases hcase : c.wsOpen = true ∧ c.projectId = some S ∧ c.userId ∈ members st S ∧ ex ≠ some c.id
  · rw [if_pos hcase, if_pos]
    obtain ⟨h1, h2, h3, h4⟩ := hcase
    refine ⟨?_, ?_⟩
    · unfold deliverCond
      simp only [Bool.and_eq_true]
      refine ⟨⟨⟨⟨hauth c hc, by simp [h2]⟩, by simpa using h3⟩, ?_⟩, h1⟩
      simp only [Bool.not_eq_true', beq_eq_false_iff_ne]
      exact fun h => h4 h
    · unfold members at h3
      cases hS : st.projects S with
      | none => rw [hS] at h3; simp at h3
      | some _ => simp
  · rw [if_neg hcase, if_neg]
    rintro ⟨hcond, hsome⟩
    unfold deliverCond at hcond
    simp only [Bool.and_eq_true, Bool.not_eq_true', beq_eq_false_iff_ne] at hcond
    obtain ⟨⟨⟨⟨_, hbound⟩, hmem⟩, hex⟩, hopen⟩ := hcond
    exact hcase ⟨hopen, by simpa using hbound, by simpa using hmem, fun h => hex h⟩

/-- C5: a chat message that is non-empty after trimming is broadcast as
`new_chat_message` carrying {userId, userName, trimmed message} to every
open member connection of the session with NO exclusion — the sender
included — whereas `edit:send` and `cursor:update` broadcasts never deliver
to the sender; a message that is empty after trimming yields only the
"Invalid chat message" error reply to the sender and no broadcast. -/
theorem C5_chat_includes_sender (st : ServerState) (c : Client) (pid : String)
    (payload : JSValue) (msg : String)
    (hn : (st.clients.map Client.id).Nodup)
    (hauth : ∀ d ∈ st.clients, d.isAuthenticated = true)
    (hpid : c.projectId = some pid)
    (hmsg : payload.getField "message" = .str msg)
    (htrim : jsTrim msg ≠ "") :
    (∀ d ∈ st.clients,
      sendCountType (handleChatMessage st c payload).2 d.id "new_chat_message" =
        if d.wsOpen = true ∧ d.projectId = some pid ∧ d.userId ∈ members st pid
        then 1 else 0) ∧
    (∀ i env, Effect.send i env ∈ (handleChatMessage st c payload).2 →
      env = ⟨"new_chat_message", .chatMsg c.userId c.userName (jsTrim msg), none, false⟩) ∧
    (∀ payload2 msg2, payload2.getField "message" = JSValue.str msg2 → jsTrim msg2 = "" →
      handleChatMessage st c payload2 = (st, sendError c "Invalid chat message" none)) ∧
    (∀ args rid, sendCountType (handleEditSend st c args rid).2 c.id "edit_applied" = 0) ∧
    (∀ args rid, sendCountType (handleCursorUpdate st c args rid).2 c.id "cursor_moved" = 0) := by
  have hmsgne : msg ≠ "" := by
    intro h
    apply htrim
    rw [h]
    decide
  have heffs : (handleChatMessage st c payload).2 =
      broadcast st pid "new_chat_message" (.chatMsg c.userId c.userName (jsTrim msg)) none := by
    unfold handleChatMessage
    rw [hpid]
    dsimp only
    rw [hmsg]
    rw [if_neg (by simp [JSValue.truthy, JSValue.isString, JSValue.asString, hmsgne, htrim])]
    rfl
  refine ⟨?_, ?_, ?_, ?_, ?_⟩
  · intro d hd
    rw [heffs]
    rw [broadcast_sendCountType_formula st pid "new_chat_message" _ none d hn hauth hd]
    exact if_congr (by simp) rfl rfl
  · intro i env henv
    rw [heffs] at henv
    exact broadcast_send_env _ _ _ _ _ _ _ henv
  · intro payload2 msg2 hmsg2 htrim2
    unfold handleChatMessage
    rw [hpid]
    dsimp only
    rw [hmsg2]
    rw [if_pos (by simp [JSValue.asString, htrim2])]
  · intro args rid
    unfold handleEditSend
    rw [hpid]
    dsimp only
    split
    · rw [sendCountType_sendError]
      rw [if_neg (by rintro ⟨-, -, h⟩; exact absurd h (by decide))]
    · rw [sendCountType_append, broadcast_sendCountType_excluded, sendCountType_sendResponse]
      rw [if_neg (by rintro ⟨-, -, h⟩; exact absurd h (by decide))]
  · intro args rid
    unfold handleCursorUpdate
    rw [hpid]
    dsimp only
    split
    · rw [sendCountType_sendError]
      rw [if_neg (by rintro ⟨-, -, h⟩; exact absurd h (by decide))]
    · rw [broadcast_sendCountType_excluded]

/-- Witness for C5: the sender's own connection receives the chat message. -/
theorem C5_chat_includes_sender_witness :
    sendCountType (handleChatMessage wState wClientA (.obj [("message", .str " hi ")])).2
      "A" "new_chat_message" = 1 := by
  have h := (C5_chat_includes_sender wState wClientA "P" (.obj [("message", .str " hi ")])
    " hi " (by decide) (by decide) rfl rfl (by decide)).1 wClientA (by decide)
  exact h.trans (by decide)

/-- A send belonging to a `sendResponse` is the response envelope. -/
theorem mem_sendResponse (c : Client) (pl : OutPayload) (rid : Option String)
    (i : String) (e : OutEnvelope) (h : Effect.send i e ∈ sendResponse c pl rid) :
    e = ⟨"mcp_tool_response", pl, rid, false⟩ := by
  unfold sendResponse at h
  split at h
  · rw [List.mem_singleton] at h
    injection h with h1 h2
  · cases h

/-- A send belonging to a `sendError` is the error envelope. -/
theorem mem_sendError (c : Client) (err : String) (rid : Option String)
    (i : String) (e : OutEnvelope) (h : Effect.send i e ∈ sendError c err rid) :
    e = ⟨"mcp_tool_response", .errObj err, rid, true⟩ := by
  unfold sendError at h
  split at h
  · rw [List.mem_singleton] at h
    injection h with h1 h2
  · cases h

/-- A send produced while leaving the old project is a `user_left` envelope. -/
theorem mem_removeFromOldProject_env (st : ServerState) (c : Client) (newPid : String)
    (i : String) (e : OutEnvelope)
    (h : Effect.send i e ∈ (removeFromOldProject st c newPid).2) :
    e.type = "user_left" := by
  unfold removeFromOldProject at h
  rcases hp : c.projectId with _ | oldPid
  · rw [hp] at h
    cases h
  · rw [hp] at h
    dsimp only at h
    split at h
    · split at h
      · split at h
        · cases h
        · rw [broadcast_send_env _ _ _ _ _ _ _ h]
      · cases h
    · cases h

/-- C9 counterexample: an invalid chat message sent with correlation id "r1"
is answered with an error reply whose `requestId` is ABSENT — the message
handler invokes the chat handler without the request's correlation id, so
chat-error replies never echo it. -/
theorem C9_counterexample :
    (onMessage wVerify wAiEnv wAiHttp wState "A" (some wClientA)
        (.chatMessage (.obj [("message", .str "   ")]) (some "r1"))).2.2 =
      [Effect.send "A" ⟨"mcp_tool_response", .errObj "Invalid chat message", none, true⟩] := rfl

/-- C9 amended: tool-call replies (success, validation-error, not-implemented)
echo the request's correlation id, and so does the unknown-envelope-type
error; chat-error replies, however, carry NO correlation id, because
`handleChatMessage` is called without the request's `requestId`. -/
theorem C9_amended_correlation_id :
    (∀ env ai st c toolName args rid i e,
      Effect.send i e ∈ (handleMcpToolCall env ai st c toolName args rid).2 →
      e.type = "mcp_tool_response" → e.requestId = rid) ∧
    (∀ st c payload i e, Effect.send i e ∈ (handleChatMessage st c payload).2 →
      e.type = "mcp_tool_response" → e.requestId = none) ∧
    (∀ verify env ai st connId c t rid, c.isAuthenticated = true →
      (onMessage verify env ai st connId (some c) (.other t rid)).2.2 =
        [Effect.send c.id ⟨"error", .text "Unknown message type", rid, false⟩]) := by
  refine ⟨?_, ?_, ?_⟩
  · intro env ai st c toolName args rid i e hmem htype
    unfold handleMcpToolCall at hmem
    split at hmem
    · -- project:join
      unfold handleProjectJoin at hmem
      dsimp only at hmem
      split at hmem
      · rw [mem_sendError _ _ _ _ _ hmem]
      · dsimp only at hmem
        rcases List.mem_append.mp hmem with hmem' | hmem'
        · rcases List.mem_append.mp hmem' with hmem'' | hmem''
          · have hul := mem_removeFromOldProject_env _ _ _ _ _ hmem''
            rw [htype] at hul
            exact absurd hul (by decide)
          · rw [mem_sendResponse _ _ _ _ _ hmem'']
        · have huj := broadcast_send_env _ _ _ _ _ _ _ hmem'
          rw [huj] at htype
          simp at htype
    · split at hmem
      · -- edit:send
        unfold handleEditSend at hmem
        rcases hp : c.projectId with _ | pid
        · rw [hp] at hmem
          rw [mem_sendError _ _ _ _ _ hmem]
        · rw [hp] at hmem
          dsimp only at hmem
          split at hmem
          · rw [mem_sendError _ _ _ _ _ hmem]
          · dsimp only at hmem
            rcases List.mem_append.mp hmem with hmem' | hmem'
            · have hea := broadcast_send_env _ _ _ _ _ _ _ hmem'
              rw [hea] at htype
              simp at htype
            · rw [mem_sendResponse _ _ _ _ _ hmem']
      · split at hmem
        · -- ai:request_*
          unfold handleAiRequest at hmem
          rcases hp : c.projectId with _ | pid
          · rw [hp] at hmem
            rw [mem_sendError _ _ _ _ _ hmem]
          · rw [hp] at hmem
            dsimp only at hmem
            rcases hk : pickApiKey env with _ | k
            · rw [hk] at hmem
              rw [mem_sendError _ _ _ _ _ hmem]
            · rw [hk] at hmem
              dsimp only at hmem
              split at hmem
              · rcases hai : ai with msg | txt
                · rw [hai] at hmem
                  rcases List.mem_cons.mp hmem with h' | h'
                  · exact Effect.noConfusion h'
                  · rw [mem_sendError _ _ _ _ _ h']
                · rw [hai] at hmem
                  rcases List.mem_cons.mp hmem with h' | h'
                  · exact Effect.noConfusion h'
                  · rw [mem_sendResponse _ _ _ _ _ h']
              · split at hmem
                · rcases hai : ai with msg | txt
                  · rw [hai] at hmem
                    rcases List.mem_cons.mp hmem with h' | h'
                    · exact Effect.noConfusion h'
                    · rw [mem_sendError _ _ _ _ _ h']
                  · rw [hai] at hmem
                    rcases List.mem_cons.mp hmem with h' | h'
                    · exact Effect.noConfusion h'
                    · rw [mem_sendResponse _ _ _ _ _ h']
                · rw [mem_sendError _ _ _ _ _ hmem]
        · split at hmem
          · -- cursor:update
            unfold handleCursorUpdate at hmem
            rcases hp : c.projectId with _ | pid
            · rw [hp] at hmem
              rw [mem_sendError _ _ _ _ _ hmem]
            · rw [hp] at hmem
              dsimp only at hmem
              split at hmem
              · rw [mem_sendError _ _ _ _ _ hmem]
              · dsimp only at hmem
                have hcm := broadcast_send_env _ _ _ _ _ _ _ hmem
                rw [hcm] at htype
                simp at htype
          · rw [mem_sendError _ _ _ _ _ hmem]
  · intro st c payload i e hmem htype
    unfold handleChatMessage at hmem
    rcases hp : c.projectId with _ | pid
    · rw [hp] at hmem
      rw [mem_sendError _ _ _ _ _ hmem]
    · rw [hp] at hmem
      dsimp only at hmem
      split at hmem
      · rw [mem_sendError _ _ _ _ _ hmem]
      · dsimp only at hmem
        have hcm := broadcast_send_env _ _ _ _ _ _ _ hmem
        rw [hcm] at htype
        simp at htype
  · intro verify env ai st connId c t rid hauth
    simp [onMessage, authedClient, hauth]

/-- Witness for the amended C9: the unknown-type error echoes "r7". -/
theorem C9_amended_correlation_id_witness :
    (onMessage wVerify wAiEnv wAiHttp wState "A" (some wClientA)
        (.other "bogus" (some "r7"))).2.2 =
      [Effect.send "A" ⟨"error", .text "Unknown message type", some "r7", false⟩] :=
  C9_amended_correlation_id.2.2 wVerify wAiEnv wAiHttp wState "A" wClientA "bogus"
    (some "r7") rfl

/-- A lone send is never a close. -/
theorem hasClose_singleton_send (x : String) (e : OutEnvelope) :
    hasClose [Effect.send x e] = false := rfl

/-- If no close occurs among the effects, no close effect is a member. -/
theorem not_mem_close_of_hasClose_false (effs : List Effect)
    (h : hasClose effs = false) (i : String) (code : Nat) (r : String) :
    Effect.close i code r ∉ effs := by
  intro hm
  unfold hasClose at h
  rw [List.any_eq_false] at h
  exact absurd rfl (h _ hm)

/-- The authenticate path closes exactly when authentication fails. -/
theorem hasClose_handleAuthMessage (verify : String → Except String Identity)
    (st : ServerState) (connId : String) (payload : JSValue) :
    hasClose (handleAuthMessage verify st connId payload).2.2 = authFailsB verify payload := by
  unfold handleAuthMessage authFailsB
  dsimp only
  split
  · rfl
  · split <;> rfl

/-- Every close of the authenticate path carries policy-violation code 1008. -/
theorem close_code_handleAuthMessage (verify : String → Except String Identity)
    (st : ServerState) (connId : String) (payload : JSValue)
    (i : String) (code : Nat) (r : String)
    (h : Effect.close i code r ∈ (handleAuthMessage verify st connId payload).2.2) :
    code = 1008 := by
  unfold handleAuthMessage at h
  dsimp only at h
  split at h
  · rcases List.mem_cons.mp h with h' | h'
    · exact Effect.noConfusion h'
    · rw [List.mem_singleton] at h'
      injection h' with h1 h2
  · split at h
    · rcases List.mem_cons.mp h with h' | h'
      · exact Effect.noConfusion h'
      · rw [List.mem_singleton] at h'
        injection h' with h1 h2
    · exact Effect.noConfusion (List.mem_singleton.mp h)

/-- C6: across every inbound message and every authentication-timer firing,
a close is emitted exactly in two situations — an `authenticate` envelope
that fails (missing/invalid token or failed verification) on a
still-unauthenticated connection, and a timer expiry while still
unauthenticated — and every close carries policy-violation status 1008; a
parse failure on an authenticated connection yields only the generic
invalid-format error reply, leaving the connection open.  (Teardown after a
transport error is connection destruction, outside the message/timer event
space modelled here.) -/
theorem C6_close_only_auth_failure_or_timeout (verify : String → Except String Identity)
    (env : AiEnv) (ai : Except String String) :
    (∀ st connId client m,
      hasClose (onMessage verify env ai st connId client m).2.2 = true ↔
        (isUnauthState client = true ∧
          ∃ pl rid, m = InMsg.authenticate pl rid ∧ authFailsB verify pl = true)) ∧
    (∀ st connId client m i code reason,
      Effect.close i code reason ∈ (onMessage verify env ai st connId client m).2.2 →
      code = 1008) ∧
    (∀ connId client, hasClose (onAuthTimer connId client) = true ↔ isUnauthState client = true) ∧
    (∀ connId client i code reason,
      Effect.close i code reason ∈ onAuthTimer connId client → code = 1008) ∧
    (∀ st connId c, c.isAuthenticated = true →
      (onMessage verify env ai st connId (some c) InMsg.malformed).2.2 =
        [Effect.send c.id ⟨"error", .text "Invalid message format", none, false⟩]) := by
  refine ⟨?_, ?_, ?_, ?_, ?_⟩
  · intro st connId client m
    rcases m with _ | ⟨pl, rid⟩ | ⟨tn, args, rid⟩ | ⟨pl, rid⟩ | ⟨t, rid⟩
    · constructor
      · intro h
        rcases client with _ | c <;> simp [onMessage, authedClient, hasClose] at h
      · rintro ⟨-, pl, rid, heq, -⟩
        exact InMsg.noConfusion heq
    · rcases client with _ | c
      · have heq : (onMessage verify env ai st connId none (.authenticate pl rid)).2.2 =
            (handleAuthMessage verify st connId pl).2.2 := by
          simp [onMessage, authedClient, authedClient]
        rw [heq, hasClose_handleAuthMessage]
        constructor
        · intro h
          exact ⟨rfl, pl, rid, rfl, h⟩
        · rintro ⟨-, pl', rid', heq', hf⟩
          injection heq' with h1 h2
          rw [h1]
          exact hf
      · rcases hca : c.isAuthenticated with _ | _
        · have heq : (onMessage verify env ai st connId (some c) (.authenticate pl rid)).2.2 =
              (handleAuthMessage verify st connId pl).2.2 := by
            simp [onMessage, authedClient, hca]
          rw [heq, hasClose_handleAuthMessage]
          constructor
          · intro h
            exact ⟨by simp [isUnauthState, hca], pl, rid, rfl, h⟩
          · rintro ⟨-, pl', rid', heq', hf⟩
            injection heq' with h1 h2
            rw [h1]
            exact hf
        · have heq : (onMessage verify env ai st connId (some c) (.authenticate pl rid)).2.2 =
              [Effect.send c.id ⟨"error", .text "Unknown message type", rid, false⟩] := by
            simp [onMessage, authedClient, hca]
          rw [heq, hasClose_singleton_send]
          constructor
          · intro h
            cases h
          · rintro ⟨hu, -⟩
            rw [isUnauthState, hca] at hu
            cases hu
    · constructor
      · intro h
        rcases client with _ | c
        · simp [onMessage, authedClient, hasClose] at h
        · rcases hca : c.isAuthenticated with _ | _
          · simp [onMessage, authedClient, hca, hasClose] at h
          · simp [onMessage, authedClient, hca,
              hasClose_handleMcpToolCall env ai st c tn args rid] at h
      · rintro ⟨-, pl', rid', heq, -⟩
        exact InMsg.noConfusion heq
    · constructor
      · intro h
        rcases client with _ | c
        · simp [onMessage, authedClient, hasClose] at h
        · rcases hca : c.isAuthenticated with _ | _
          · simp [onMessage, authedClient, hca, hasClose] at h
          · simp [onMessage, authedClient, hca, hasClose_handleChatMessage st c pl] at h
      · rintro ⟨-, pl', rid', heq, -⟩
        exact InMsg.noConfusion heq
    · constructor
      · intro h
        rcases client with _ | c
        · simp [onMessage, authedClient, hasClose] at h
        · rcases hca : c.isAuthenticated with _ | _ <;> simp [onMessage, authedClient, hca, hasClose] at h
      · rintro ⟨-, pl', rid', heq, -⟩
        exact InMsg.noConfusion heq
  · intro st connId client m i code reason hmem
    rcases m with _ | ⟨pl, rid⟩ | ⟨tn, args, rid⟩ | ⟨pl, rid⟩ | ⟨t, rid⟩
    · rcases client with _ | c <;> simp [onMessage, authedClient, authedClient] at hmem
    · rcases client with _ | c
      · have heq : (onMessage verify env ai st connId none (.authenticate pl rid)).2.2 =
            (handleAuthMessage verify st connId pl).2.2 := by
          simp [onMessage, authedClient, authedClient]
        rw [heq] at hmem
        exact close_code_handleAuthMessage verify st connId pl i code reason hmem
      · rcases hca : c.isAuthenticated with _ | _
        · have heq : (onMessage verify env ai st connId (some c) (.authenticate pl rid)).2.2 =
              (handleAuthMessage verify st connId pl).2.2 := by
            simp [onMessage, authedClient, hca]
          rw [heq] at hmem
          exact close_code_handleAuthMessage verify st connId pl i code reason hmem
        · simp [onMessage, authedClient, hca] at hmem
    · rcases client with _ | c
      · simp [onMessage, authedClient, authedClient] at hmem
      · rcases hca : c.isAuthenticated with _ | _
        · simp [onMessage, authedClient, hca] at hmem
        · have heq : (onMessage verify env ai st connId (some c)
              (.mcpToolCall tn args rid)).2.2 = (handleMcpToolCall env ai st c tn args rid).2 := by
            simp [onMessage, authedClient, hca]
          rw [heq] at hmem
          exact absurd hmem (not_mem_close_of_hasClose_false _
            (hasClose_handleMcpToolCall env ai st c tn args rid) i code reason)
    · rcases client with _ | c
      · simp [onMessage, authedClient, authedClient] at hmem
      · rcases hca : c.isAuthenticated with _ | _
        · simp [onMessage, authedClient, hca] at hmem
        · have heq : (onMessage verify env ai st connId (some c)
              (.chatMessage pl rid)).2.2 = (handleChatMessage st c pl).2 := by
            simp [onMessage, authedClient, hca]
          rw [heq] at hmem
          exact absurd hmem (not_mem_close_of_hasClose_false _
            (hasClose_handleChatMessage st c pl) i code reason)
    · rcases client with _ | c
      · simp [onMessage, authedClient, authedClient] at hmem
      · rcases hca : c.isAuthenticated with _ | _ <;> simp [onMessage, authedClient, hca] at hmem
  · intro connId client
    rcases client with _ | c
    · simp [onAuthTimer, isUnauthState, hasClose]
    · rcases hca : c.isAuthenticated with _ | _ <;>
        simp [onAuthTimer, isUnauthState, hasClose, hca]
  · intro connId client i code reason hmem
    rcases client with _ | c
    · rw [onAuthTimer] at hmem
      rw [List.mem_singleton] at hmem
      injection hmem with h1 h2
    · rcases hca : c.isAuthenticated with _ | _
      · rw [onAuthTimer] at hmem
        rw [if_neg (by simp [hca])] at hmem
        rw [List.mem_singleton] at hmem
        injection hmem with h1 h2
      · rw [onAuthTimer] at hmem
        rw [if_pos hca] at hmem
        cases hmem
  · intro st connId c hca
    rfl

/-- Witness for C6: a malformed message on an authenticated connection gets
the generic invalid-format error and stays open. -/
theorem C6_close_only_auth_failure_or_timeout_witness :
    (onMessage wVerify wAiEnv wAiHttp wState "A" (some wClientA) InMsg.malformed).2.2 =
      [Effect.send "A" ⟨"error", .text "Invalid message format", none, false⟩] :=
  (C6_close_only_auth_failure_or_timeout wVerify wAiEnv wAiHttp).2.2.2.2 wState "A"
    wClientA rfl

/-- The old-project row after a session switch away from it: the user id is
erased, and the row is deleted if that empties it. -/
theorem removeFromOldProject_projects_old (st : ServerState) (c : Client) (P newPid : String)
    (hP : c.projectId = some P) (hne : P ≠ newPid) :
    (removeFromOldProject st c newPid).1.projects P =
      (match st.projects P with
       | none => none
       | some s => if s.erase c.userId = [] then none else some (s.erase c.userId)) := by
  unfold removeFromOldProject
  rw [hP]
  dsimp only
  rw [if_pos hne]
  rcases hS : st.projects P with _ | s
  · exact hS
  · dsimp only
    split
    · dsimp only
      rw [if_pos rfl]
    · dsimp only
      rw [if_pos rfl]

/-- The effects of leaving the old project: nothing when the old row is
absent or becomes empty, otherwise one `user_left` broadcast on the updated
registry, excluding the leaver. -/
theorem removeFromOldProject_effs (st : ServerState) (c : Client) (P newPid : String)
    (hP : c.projectId = some P) (hne : P ≠ newPid) :
    (removeFromOldProject st c newPid).2 =
      (match st.projects P with
       | none => []
       | some s =>
         if s.erase c.userId = [] then []
         else broadcast
           ⟨st.clients, fun p => if p = P then some (s.erase c.userId) else st.projects p⟩
           P "user_left" (.userEvent c.userId c.userName) (some c.id)) := by
  unfold removeFromOldProject
  rw [hP]
  dsimp only
  rw [if_pos hne]
  rcases hS : st.projects P with _ | s
  · rfl
  · dsimp only
    split <;> rfl

/-- Leaving the old project contributes no sends of any type other than
`user_left`. -/
theorem removeFromOldProject_count_ne (st : ServerState) (c : Client) (newPid : String)
    (i t' : String) (hne : t' ≠ "user_left") :
    sendCountType (removeFromOldProject st c newPid).2 i t' = 0 := by
  unfold removeFromOldProject
  rcases c.projectId with _ | oldPid
  · rfl
  · dsimp only
    split
    · rcases st.projects oldPid with _ | s
      · rfl
      · dsimp only
        split
        · rfl
        · exact broadcast_sendCountType_ne _ _ _ _ _ _ _ hne
    · rfl

/-- Leaving the old project never sends to the leaver's own connection. -/
theorem removeFromOldProject_count_self (st : ServerState) (c : Client) (newPid : String)
    (t' : String) :
    sendCountType (removeFromOldProject st c newPid).2 c.id t' = 0 := by
  unfold removeFromOldProject
  rcases c.projectId with _ | oldPid
  · rfl
  · dsimp only
    split
    · rcases st.projects oldPid with _ | s
      · rfl
      · dsimp only
        split
        · rfl
        · exact broadcast_sendCountType_excluded _ _ _ _ _ _
    · rfl

/-- `setClientProject` preserves the all-authenticated invariant. -/
theorem hauth_setClientProject (l : List Client) (i : String) (p : Option String)
    (h : ∀ d ∈ l, d.isAuthenticated = true) :
    ∀ d ∈ setClientProject l i p, d.isAuthenticated = true := by
  intro d hd
  unfold setClientProject at hd
  rcases List.mem_map.mp hd with ⟨a, ha, rfl⟩
  by_cases hai : a.id = i <;> simp [hai, h a ha]

/-- C4: a session switch `join(Q)` from a connection bound to P (Q ≠ P, Q a
non-empty string) removes the user id from P's member set; `user_left` is
delivered exactly to the open remaining P members (sender excluded), which
in particular means only when P's row survives the removal; the connection
is rebound to Q and the user id added to Q's member set; exactly one success
reply goes to the sender; and `user_joined` is delivered exactly to Q's open
members excluding the joiner. -/
theorem C4_session_switch (st : ServerState) (c : Client) (P Q : String) (args : JSValue)
    (rid : Option String)
    (hn : (st.clients.map Client.id).Nodup)
    (hauth : ∀ d ∈ st.clients, d.isAuthenticated = true)
    (hnset : registryNodup st)
    (hc : c ∈ st.clients)
    (hP : c.projectId = some P)
    (hQP : Q ≠ P)
    (hQ : Q ≠ "")
    (hargs : args.getField "projectId" = .str Q)
    (hopen : c.wsOpen = true) :
    c.userId ∉ members (handleProjectJoin st c args rid).1 P ∧
    lookupClient (handleProjectJoin st c args rid).1 c.id = some { c with projectId := some Q } ∧
    c.userId ∈ members (handleProjectJoin st c args rid).1 Q ∧
    sendCountType (handleProjectJoin st c args rid).2 c.id "mcp_tool_response" = 1 ∧
    Effect.send c.id ⟨"mcp_tool_response", .result true ("Joined project " ++ Q), rid, false⟩
      ∈ (handleProjectJoin st c args rid).2 ∧
    (∀ d ∈ st.clients, d.id ≠ c.id →
      sendCountType (handleProjectJoin st c args rid).2 d.id "user_left" =
        if d.wsOpen = true ∧ d.projectId = some P ∧ d.userId ∈ (members st P).erase c.userId
        then 1 else 0) ∧
    sendCountType (handleProjectJoin st c args rid).2 c.id "user_left" = 0 ∧
    sendCountType (handleProjectJoin st c args rid).2 c.id "user_joined" = 0 ∧
    (∀ d ∈ st.clients, d.id ≠ c.id →
      sendCountType (handleProjectJoin st c args rid).2 d.id "user_joined" =
        if d.wsOpen = true ∧ d.projectId = some Q ∧ d.userId ∈ setAdd (members st Q) c.userId
        then 1 else 0) := by
  have hPQ : P ≠ Q := fun h => hQP h.symm
  have hclA := removeFromOldProject_clients st c Q
  have hprojQ := removeFromOldProject_projects_new st c Q
  have hprojP := removeFromOldProject_projects_old st c P Q hP hPQ
  have heff1 := removeFromOldProject_effs st c P Q hP hPQ
  have hjoin : handleProjectJoin st c args rid =
      (⟨setClientProject (removeFromOldProject st c Q).1.clients c.id (some Q),
        fun p => if p = Q then
            some (setAdd (((removeFromOldProject st c Q).1.projects Q).getD []) c.userId)
          else (removeFromOldProject st c Q).1.projects p⟩,
       (removeFromOldProject st c Q).2
         ++ sendResponse c (.result true ("Joined project " ++ Q)) rid
         ++ broadcast
             ⟨setClientProject (removeFromOldProject st c Q).1.clients c.id (some Q),
              fun p => if p = Q then
                  some (setAdd (((removeFromOldProject st c Q).1.projects Q).getD []) c.userId)
                else (removeFromOldProject st c Q).1.projects p⟩
             Q "user_joined" (.userEvent c.userId c.userName) (some c.id)) := by
    unfold handleProjectJoin
    rw [hargs]
    dsimp only [JSValue.asString]
    rw [if_neg (by simp [JSValue.truthy, JSValue.isString, hQ])]
  have hn3 : ((setClientProject (removeFromOldProject st c Q).1.clients c.id (some Q)).map
      Client.id).Nodup := by
    rw [setClientProject_map_id, hclA]
    exact hn
  have hauth3 : ∀ d ∈ setClientProject (removeFromOldProject st c Q).1.clients c.id (some Q),
      d.isAuthenticated = true := by
    apply hauth_setClientProject
    rw [hclA]
    exact hauth
  refine ⟨?_, ?_, ?_, ?_, ?_, ?_, ?_, ?_, ?_⟩
  · -- (a) removed from P's member set
    rw [hjoin]
    unfold members
    dsimp only
    rw [if_neg hPQ, hprojP]
    rcases hS : st.projects P with _ | s
    · simp
    · dsimp only
      split
      · simp
      · have hsnd := hnset P s hS
        simp only [Option.getD_some]
        intro hmem
        exact absurd rfl ((hsnd.mem_erase_iff.mp hmem).1)
  · -- (b) rebound to Q
    rw [hjoin]
    unfold lookupClient
    dsimp only
    rw [hclA]
    exact lookup_setClientProject st.clients c (some Q) hn hc
  · -- (c) member of Q
    rw [hjoin]
    unfold members
    dsimp only
    rw [if_pos rfl]
    simp only [Option.getD_some]
    exact setAdd_mem _ _
  · -- (d) exactly one tool-call reply to the sender
    rw [hjoin]
    dsimp only
    rw [sendCountType_append, sendCountType_append]
    rw [removeFromOldProject_count_ne st c Q c.id _ (by decide)]
    rw [sendCountType_sendResponse, if_pos ⟨hopen, rfl, rfl⟩]
    rw [broadcast_sendCountType_ne _ _ _ _ _ _ _ (by decide)]
  · -- (e) the success reply envelope is present
    rw [hjoin]
    dsimp only
    apply List.mem_append_left
    apply List.mem_append_right
    unfold sendResponse
    rw [if_pos hopen]
    exact List.mem_singleton.mpr rfl
  · -- (f) user_left delivered exactly to remaining open P members
    intro d hd hdc
    rw [hjoin]
    dsimp only
    rw [sendCountType_append, sendCountType_append]
    rw [sendCountType_sendResponse, if_neg (by rintro ⟨-, -, h⟩; exact absurd h (by decide))]
    rw [broadcast_sendCountType_ne _ _ _ _ _ _ _ (by decide)]
    rw [heff1]
    rcases hS : st.projects P with _ | s
    · have hm : members st P = [] := by
        unfold members
        rw [hS]
        rfl
      rw [hm]
      rw [if_neg (by rintro ⟨-, -, hmem⟩; simp at hmem)]
      rfl
    · have hm : members st P = s := by
        unfold members
        rw [hS]
        rfl
      rw [hm]
      dsimp only
      split
      · rename_i hErased
        rw [hErased]
        rw [if_neg (by rintro ⟨-, -, hmem⟩; simp at hmem)]
        rfl
      · have hform := broadcast_sendCountType_formula
          ⟨st.clients, fun p => if p = P then some (s.erase c.userId) else st.projects p⟩
          P "user_left" (.userEvent c.userId c.userName) (some c.id) d hn hauth hd
        rw [hform]
        have hmm : members
            ⟨st.clients, fun p => if p = P then some (s.erase c.userId) else st.projects p⟩ P
            = s.erase c.userId := by
          unfold members
          dsimp only
          rw [if_pos rfl]
          rfl
        rw [hmm]
        refine if_congr ⟨?_, ?_⟩ rfl rfl
        · rintro ⟨h1, h2, h3, -⟩
          exact ⟨h1, h2, h3⟩
        · rintro ⟨h1, h2, h3⟩
          exact ⟨h1, h2, h3, fun h => hdc (Option.some.inj h).symm⟩
  · -- (g1) the sender receives no user_left
    rw [hjoin]
    dsimp only
    rw [sendCountType_append, sendCountType_append]
    rw [removeFromOldProject_count_self st c Q _]
    rw [sendCountType_sendResponse, if_neg (by rintro ⟨-, -, h⟩; exact absurd h (by decide))]
    rw [broadcast_sendCountType_ne _ _ _ _ _ _ _ (by decide)]
  · -- (g2) the sender receives no user_joined
    rw [hjoin]
    dsimp only
    rw [sendCountType_append, sendCountType_append]
    rw [removeFromOldProject_count_ne st c Q c.id _ (by decide)]
    rw [sendCountType_sendResponse, if_neg (by rintro ⟨-, -, h⟩; exact absurd h (by decide))]
    rw [broadcast_sendCountType_excluded]
  · -- (h) user_joined delivered exactly to open Q members, joiner excluded
    intro d hd hdc
    rw [hjoin]
    dsimp only
    rw [sendCountType_append, sendCountType_append]
    rw [removeFromOldProject_count_ne st c Q d.id _ (by decide)]
    rw [sendCountType_sendResponse, if_neg (by rintro ⟨-, -, h⟩; exact absurd h (by decide))]
    have hd3 : d ∈ setClientProject (removeFromOldProject st c Q).1.clients c.id (some Q) := by
      apply mem_setClientProject_of_ne
      · rw [hclA]
        exact hd
      · exact hdc
    have hform := broadcast_sendCountType_formula
        ⟨setClientProject (removeFromOldProject st c Q).1.clients c.id (some Q),
         fun p => if p = Q then
             some (setAdd (((removeFromOldProject st c Q).1.projects Q).getD []) c.userId)
           else (removeFromOldProject st c Q).1.projects p⟩
        Q "user_joined" (.userEvent c.userId c.userName) (some c.id) d hn3 hauth3 hd3
    rw [hform]
    have hmQ : members
        ⟨setClientProject (removeFromOldProject st c Q).1.clients c.id (some Q),
         fun p => if p = Q then
             some (setAdd (((removeFromOldProject st c Q).1.projects Q).getD []) c.userId)
           else (removeFromOldProject st c Q).1.projects p⟩ Q
        = setAdd (members st Q) c.userId := by
      unfold members
      dsimp only
      rw [if_pos rfl]
      rw [hprojQ]
      rfl
    rw [hmQ]
    have hiff : (d.wsOpen = true ∧ d.projectId = some Q ∧
        d.userId ∈ setAdd (members st Q) c.userId ∧ some c.id ≠ some d.id) ↔
        (d.wsOpen = true ∧ d.projectId = some Q ∧
          d.userId ∈ setAdd (members st Q) c.userId) :=
      ⟨fun ⟨h1, h2, h3, _⟩ => ⟨h1, h2, h3⟩,
       fun ⟨h1, h2, h3⟩ => ⟨h1, h2, h3, fun h => hdc (Option.some.inj h).symm⟩⟩
    simp only [hiff]
    simp only [Nat.zero_add]

/-- Witness for C4: u1 switches from "P" to "Q"; u1 leaves P's member set and
u2's open connection receives exactly one `user_left`. -/
theorem C4_session_switch_witness :
    "u1" ∉ members
      (handleProjectJoin wState wClientA (.obj [("projectId", .str "Q")]) (some "r1")).1 "P" ∧
    sendCountType
      (handleProjectJoin wState wClientA (.obj [("projectId", .str "Q")]) (some "r1")).2
      "B" "user_left" = 1 := by
  have h := C4_session_switch wState wClientA "P" "Q" (.obj [("projectId", .str "Q")])
    (some "r1") (by decide) (by decide)
    (by
      intro p s hp
      by_cases hpP : p = "P"
      · subst hpP
        simp only [wState, if_pos rfl] at hp
        cases hp
        decide
      · simp only [wState, if_neg hpP] at hp
        cases hp)
    (by decide) rfl (by decide) (by decide) rfl rfl
  refine ⟨h.1, ?_⟩
  have h6 := h.2.2.2.2.2.1 wClientB (by decide) (by decide)
  exact h6.trans (by decide)
